import Mathlib

-- Shallow embedding of src/backend.py: the download progress orchestration
-- subsystem of the Xyfen backend (Flask + yt-dlp).  Machine state is passed
-- explicitly: the global dict `downloads` becomes a `Store`, the downloads
-- directory becomes a list of filenames, worker threads become pure functions
-- from the external fetch outcome to the sequence of stored job values.

namespace Backend

/-- Job status strings that appear in the program and the spec
(`queued|downloading|converting|ready|error`).  This variant of the code only
ever stores `downloading`, `ready` and `error`, but the SSE generator also
tests for `converting`, so the full domain is embedded. -/
inductive Status
  | queued
  | downloading
  | converting
  | ready
  | error
deriving DecidableEq

/-- The `stage` strings stored by the worker and its progress hook. -/
inductive Stage
  | downloading
  | converting
  | complete
deriving DecidableEq

/-- Python exception payloads reaching `str(e)`, rendered abstractly: the
`int()` parse failure on the p-stripped quality string, any exception escaping
`ydl.download`, and the `'Unknown error'` fallback used by the SSE generator
when the `error` key is absent. -/
inductive PyErr
  | intParse (lit : String)
  | ydl (msg : String)
  | unknownError
deriving DecidableEq

/-- One entry of the `downloads` dict.  The Python dicts carry different key
sets at different times; absent keys are `none`. -/
structure Job where
  status : Status
  progress : ℚ
  stage : Option Stage
  filename : Option String
  error : Option PyErr
deriving DecidableEq

/-- The global `downloads` dict: job id to job state. -/
abbrev Store := String → Option Job

def emptyStore : Store := fun _ => none

/-- Python dict assignment `downloads[id] = j`. -/
def setJob (s : Store) (id : String) (j : Job) : Store :=
  fun k => if k = id then some j else s k

/-- Python dict lookup `downloads.get(id)` / `downloads[id]`. -/
def getJob (s : Store) (id : String) : Option Job := s id

/-- Match a literal prefix of a character list, returning the rest
(deterministic embedding of the anchored regex alternatives, whose branches
here never overlap). -/
def dropPre : List Char → List Char → Option (List Char)
  | [], s => some s
  | _ :: _, [] => none
  | p :: ps, c :: cs => if c = p then dropPre ps cs else none

/-- The character class `[a-zA-Z0-9_-]` of the video-id part of the regex. -/
def idChar (c : Char) : Bool :=
  c.isAlpha || c.isDigit || c = '_' || c = '-'

/-- The host alternation of the regex:
`youtube.com/(watch?v=|embed/|v/|shorts/)` or `youtu.be/`. -/
def hostTail (s : List Char) : Option (List Char) :=
  match dropPre "youtube.com/".data s with
  | some r =>
      (dropPre "watch?v=".data r).orElse (fun _ =>
        (dropPre "embed/".data r).orElse (fun _ =>
          (dropPre "v/".data r).orElse (fun _ => dropPre "shorts/".data r)))
  | none => dropPre "youtu.be/".data s

/-- Embedding of `validate_youtube_url`: `re.match` of
`^(https?://)?(www\.)?(youtube\.com/(watch\?v=|embed/|v/|shorts/)|youtu\.be/)[a-zA-Z0-9_-]\x7b11\x7d`
(match at start, rest of the string unconstrained). -/
def validate_youtube_url (url : String) : Bool :=
  let s0 := url.data
  let s1 := ((dropPre "https://".data s0).orElse
      (fun _ => dropPre "http://".data s0)).getD s0
  let s2 := (dropPre "www.".data s1).getD s1
  match hostTail s2 with
  | some r => decide (11 ≤ r.length) && (r.take 11).all idChar
  | none => false

/-- Python `quality.replace('p', '')`: removes every lowercase p. -/
def stripP (q : String) : String :=
  String.mk (q.data.filter (fun c => c ≠ 'p'))

/-- Digit-run acceptor for Python `int`: `[0-9]+` groups separated by single
underscores.  The flag records whether a digit is required next. -/
def digitsFrom : Bool → List Char → Bool
  | needDigit, [] => !needDigit
  | needDigit, c :: cs =>
      if c = '_' then !needDigit && digitsFrom true cs
      else c.isDigit && digitsFrom false cs

/-- Python `str.strip()` on a character list: surrounding whitespace removed. -/
def pyStrip (s : List Char) : List Char :=
  ((s.dropWhile Char.isWhitespace).reverse.dropWhile Char.isWhitespace).reverse

/-- Whether Python `int(s)` succeeds: surrounding whitespace stripped, an
optional sign, then a nonempty ASCII digit sequence with optional single
underscore separators.  (Non-ASCII digit forms are not modelled; no input in
this development uses them.) -/
def pyIntOk (s : String) : Bool :=
  match pyStrip s.data with
  | [] => false
  | c :: cs =>
      if c = '+' || c = '-' then digitsFrom true cs else digitsFrom true (c :: cs)

/-- One invocation of the yt-dlp progress hook: the dict `d` restricted to the
keys the hook reads.  `total_bytes` and `total_bytes_estimate` may be absent
(`none`); `downloaded_bytes` defaults to 0 via `d.get('downloaded_bytes', 0)`. -/
inductive HookEvent
  | downloading (total_bytes : Option ℕ) (total_bytes_estimate : Option ℕ)
      (downloaded_bytes : Option ℕ)
  | finished
  | other
deriving DecidableEq

/-- Python `d.get('total_bytes') or d.get('total_bytes_estimate', 0)`:
falsy (`None` or `0`) `total_bytes` falls through to the estimate. -/
def hookTotal : Option ℕ → Option ℕ → ℕ
  | some t, tbe => if t = 0 then tbe.getD 0 else t
  | none, tbe => tbe.getD 0

/-- Embedding of `progress_hook` acting on the job entry it mutates.  While
downloading with a positive total it stores `min(downloaded/total*100, 99)`
and stage `downloading`; with no size signal it changes nothing; on the
`finished` event it stores progress 95 and stage `converting`. -/
def progress_hook (d : HookEvent) (j : Job) : Job :=
  match d with
  | .downloading tb tbe db =>
      if 0 < hookTotal tb tbe then
        { j with
            progress := min (((db.getD 0 : ℚ) / (hookTotal tb tbe : ℚ)) * 100) 99,
            stage := some Stage.downloading }
      else j
  | .finished => { j with progress := 95, stage := some Stage.converting }
  | .other => j

/-- Outcome of the external `ydl.download([url])` call: the hook events it
fires in order, whether it returns or raises, and the complete contents of the
downloads directory after it has run (the fetch is the only writer while the
worker executes). -/
structure DlOutcome where
  events : List HookEvent
  result : Except PyErr Unit
  filesAfter : List String

/-- The dict first stored by the worker:
`{'status': 'downloading', 'progress': 0, 'stage': 'downloading'}`. -/
def initJob : Job :=
  { status := .downloading, progress := 0, stage := some .downloading,
    filename := none, error := none }

/-- The dict stored on success:
`{'status': 'ready', 'progress': 100, 'filename': f, 'stage': 'complete'}`. -/
def readyJob (id : String) : Job :=
  { status := .ready, progress := 100, stage := some .complete,
    filename := some (id ++ ".mp4"), error := none }

/-- The dict stored by the `except` handler:
`{'status': 'error', 'error': str(e), 'progress': 0}`. -/
def errJob (e : PyErr) : Job :=
  { status := .error, progress := 0, stage := none, filename := none,
    error := some e }

/-- Successive values of `downloads[id]` produced by a run of hook events. -/
def hook_states : Job → List HookEvent → List Job
  | _, [] => []
  | j, e :: es => progress_hook e j :: hook_states (progress_hook e j) es

/-- The extension search order of the post-download file scan. -/
def extOrder : List String := ["mp4", "webm", "mkv"]

/-- The scan-and-rename step after `ydl.download` returns: find the first of
`id.mp4`, `id.webm`, `id.mkv` on disk and, when its suffix is not `.mp4`,
rename it to `id.mp4`. -/
def renameStep (id : String) (disk : List String) : List String :=
  match extOrder.find? (fun ext => disk.contains (id ++ "." ++ ext)) with
  | none => disk
  | some ext =>
      if ext = "mp4" then disk
      else (id ++ ".mp4") :: disk.filter (fun f => f ≠ id ++ "." ++ ext)

/-- Result of one `download_worker` run: the successive values taken by
`downloads[download_id]` (first to last), and the downloads directory
contents when the worker thread exits. -/
structure WorkerRun where
  states : List Job
  disk : List String

/-- Embedding of `download_worker`.  The worker first stores the initial
downloading entry, then parses `int(quality.replace('p', ''))`; a parse
failure is caught by the same `except` as everything else.  Otherwise the
fetch runs (hook events mutate the entry), and the worker stores the ready
entry on return or the error entry on an exception.  The `except` handler
touches no files, so the directory is left exactly as the fetch left it. -/
def download_worker (id quality : String) (disk0 : List String)
    (dl : DlOutcome) : WorkerRun :=
  if pyIntOk (stripP quality) then
    match dl.result with
    | .error e =>
        ⟨initJob :: hook_states initJob dl.events ++ [errJob e], dl.filesAfter⟩
    | .ok _ =>
        ⟨initJob :: hook_states initJob dl.events ++ [readyJob id],
          renameStep id dl.filesAfter⟩
  else
    ⟨[initJob, errJob (.intParse (stripP quality))], disk0⟩

/-- Response of `POST /api/download`. -/
inductive DlResp
  | started (id : String)
  | invalidUrl
deriving DecidableEq

/-- HTTP status code of a `POST /api/download` response. -/
def respCode : DlResp → ℕ
  | .started _ => 200
  | .invalidUrl => 400

/-- Embedding of the `start_download` endpoint.  It takes the store as an
argument to record that, although the global dict is in scope, the endpoint
never reads it: it validates only the URL and spawns a worker for
`(download_id, quality)` unconditionally.  `freshId` stands for the
server-side `str(uuid.uuid4())` used when the client supplies no id. -/
def start_download (_store : Store) (url quality : String)
    (idOpt : Option String) (freshId : String) :
    DlResp × Option (String × String) :=
  let download_id := idOpt.getD freshId
  if url = "" ∨ validate_youtube_url url = false then (.invalidUrl, none)
  else (.started download_id, some (download_id, quality))

/-- Response of `GET /api/download/stream` (before any SSE data flows). -/
inductive StreamResp
  | sse
  | invalidUrl
deriving DecidableEq

/-- Embedding of the `download_stream` endpoint's synchronous part: the same
URL check, then a worker thread is started and the SSE response returned. -/
def download_stream (_store : Store) (url quality : String)
    (idOpt : Option String) (freshId : String) :
    StreamResp × Option (String × String) :=
  let download_id := idOpt.getD freshId
  if url = "" ∨ validate_youtube_url url = false then (.invalidUrl, none)
  else (.sse, some (download_id, quality))

/-- Response of `GET /api/download/file/<filename>`. -/
inductive FileResp
  | fileAttachment (name : String)
  | notFound
deriving DecidableEq

/-- HTTP status code of a file-delivery response. -/
def fileRespCode : FileResp → ℕ
  | .fileAttachment _ => 200
  | .notFound => 404

/-- Embedding of `download_file`: if the file exists it is streamed with
`send_file` as an attachment, otherwise 404.  The function returns the store
and the directory as it leaves them: unchanged in both branches, since the
endpoint performs no deletion and never touches `downloads`. -/
def download_file (store : Store) (disk : List String) (filename : String) :
    FileResp × Store × List String :=
  if disk.contains filename then (.fileAttachment filename, store, disk)
  else (.notFound, store, disk)

/-- One SSE event of the stream endpoint (the JSON payloads, structurally). -/
inductive Event
  | progress (progress : ℚ) (stage : String)
  | complete (filename : String)
  | error (message : PyErr)
deriving DecidableEq

/-- The stage strings stored in the dict. -/
def stageName : Stage → String
  | .downloading => "downloading"
  | .converting => "converting"
  | .complete => "complete"

/-- Embedding of the `generate()` loop of the SSE endpoint, as a function of
the sequence of poll results (`downloads` may lack the id, hence `Option`).
While the observed status is `downloading` or `converting` it yields a
progress event every poll; at `ready` it yields one complete event and
breaks; at `error` it yields one error event and breaks; otherwise it yields
nothing and keeps polling.  (Reachable `ready` entries always carry
`filename`; the `getD` defaults mirror `status.get('stage', 'downloading')`
and `status.get('error', 'Unknown error')`.) -/
def generate : List (Option Job) → List Event
  | [] => []
  | none :: rest => generate rest
  | some j :: rest =>
      match j.status with
      | .downloading | .converting =>
          .progress j.progress ((j.stage.map stageName).getD "downloading") ::
            generate rest
      | .ready => [.complete (j.filename.getD "")]
      | .error => [.error (j.error.getD PyErr.unknownError)]
      | .queued => generate rest

/-- Whether a poll result makes the generator stop. -/
def pollTerminal : Option Job → Bool
  | some j => decide (j.status = Status.ready ∨ j.status = Status.error)
  | none => false

/-- Whether an SSE event is terminal. -/
def isTerminalEvent : Event → Bool
  | .complete _ => true
  | .error _ => true
  | .progress _ _ => false

/-- The terminal event the generator emits for a terminal job state. -/
def terminalEventFor (j : Job) : Event :=
  if j.status = Status.ready then .complete (j.filename.getD "")
  else .error (j.error.getD PyErr.unknownError)

/-- Whether the string `p` begins the string `s`. -/
def beginsWith (p s : String) : Bool :=
  (dropPre p.data s.data).isSome

/-- Modelled from the spec: the Retention Sweeper's view of a job.  The
sweeper itself (spec section 4.4) is absent from src/backend.py — only the
`downloads` store it would scan is declared there (lines 18-21) — and this
variant's job dicts carry no `createdAt`, so the spec's data model supplies
the field: `createdAt`, a timestamp used solely for retention expiry. -/
structure SweepJob where
  status : Status
  createdAt : ℕ
deriving DecidableEq

/-- Modelled from the spec: the default time-to-live, 600 seconds. -/
def TTL : ℕ := 600

/-- Modelled from the spec: whether a job's age exceeds the time-to-live. -/
def expired (now ttl : ℕ) (j : SweepJob) : Bool :=
  decide (ttl < now - j.createdAt)

/-- Modelled from the spec: one pass of the Retention Sweeper (spec section
4.4, absent from src/backend.py).  It scans all jobs and, for each whose age
exceeds the time-to-live regardless of status, removes the job from the store
and deletes its artifact files — files named by the job identifier (spec
section 6: transient files are named by job identifier). -/
def sweep (now ttl : ℕ) (store : List (String × SweepJob))
    (disk : List String) : List (String × SweepJob) × List String :=
  let expIds := (store.filter (fun p => expired now ttl p.2)).map (fun p => p.1)
  (store.filter (fun p => !expired now ttl p.2),
   disk.filter (fun f => !expIds.any (fun id => beginsWith (id ++ ".") f)))

/-- The claim's quality-parse predicate, following the claim's words rather
than the source (the source applies `replace` of every p, not only a trailing
one): the text before a trailing p, or the whole string when it does not end
in p. -/
def textBeforeTrailingP (q : String) : String :=
  match q.data.getLast? with
  | some c => if c = 'p' then String.mk q.data.dropLast else q
  | none => q

-- Helper lemmas shared by the claim theorems.

/-- The progress hook never changes `status`. -/
lemma progress_hook_status (e : HookEvent) (j : Job) :
    (progress_hook e j).status = j.status := by
  cases e with
  | downloading tb tbe db =>
      simp only [progress_hook]
      split <;> rfl
  | finished => rfl
  | other => rfl

/-- The progress hook keeps stored progress at or below 99. -/
lemma progress_hook_progress_le (e : HookEvent) (j : Job)
    (h : j.progress ≤ 99) : (progress_hook e j).progress ≤ 99 := by
  cases e with
  | downloading tb tbe db =>
      simp only [progress_hook]
      split
      · exact min_le_right _ _
      · exact h
  | finished => norm_num [progress_hook]
  | other => exact h

/-- Every state produced by a run of hook events keeps progress at or
below 99. -/
lemma hook_states_progress_le :
    ∀ (es : List HookEvent) (j : Job), j.progress ≤ 99 →
      ∀ k ∈ hook_states j es, k.progress ≤ 99 := by
  intro es
  induction es with
  | nil => intro j _ k hk; simp [hook_states] at hk
  | cons e es ih =>
      intro j hj k hk
      simp only [hook_states, List.mem_cons] at hk
      rcases hk with hk | hk
      · exact hk ▸ progress_hook_progress_le e j hj
      · exact ih (progress_hook e j) (progress_hook_progress_le e j hj) k hk

/-- Every state produced by a run of hook events has the initial status. -/
lemma hook_states_status :
    ∀ (es : List HookEvent) (j : Job), ∀ k ∈ hook_states j es,
      k.status = j.status := by
  intro es
  induction es with
  | nil => intro j k hk; simp [hook_states] at hk
  | cons e es ih =>
      intro j k hk
      simp only [hook_states, List.mem_cons] at hk
      rcases hk with hk | hk
      · exact hk ▸ progress_hook_status e j
      · exact (ih (progress_hook e j) k hk).trans (progress_hook_status e j)

/-- The last element of a cons-append-singleton list. -/
lemma getLast?_cons_append {α : Type} (a t : α) (l : List α) :
    (a :: (l ++ [t])).getLast? = some t := by
  rw [show a :: (l ++ [t]) = (a :: l) ++ [t] from rfl, List.getLast?_concat]

/-- Prepending to a nonempty list keeps its last element. -/
lemma getLast?_cons_of_ne_nil {α : Type} (a : α) {l : List α} (h : l ≠ []) :
    (a :: l).getLast? = l.getLast? := by
  cases l with
  | nil => exact absurd rfl h
  | cons b t => exact List.getLast?_cons_cons

/-- A valid URL is nonempty, so the endpoint's guard is false. -/
lemma guard_false_of_valid {url : String}
    (hu : validate_youtube_url url = true) :
    ¬(url = "" ∨ validate_youtube_url url = false) := by
  rintro (h | h)
  · subst h
    exact absurd hu (by decide)
  · rw [hu] at h
    cases h

-- Claim theorems.

/-- C1 counterexample: `start_download` in src/backend.py performs no rate
limiting.  Here four job-creation requests from the same client arrive inside
one trailing window (the endpoint consults no per-client state at all, so the
four calls are literally the same computation); every one of them — in
particular the fourth — is answered `started` with HTTP 200, not 429, and the
job store passed in is never even read, so no admission timestamp exists to be
recorded. -/
theorem C1_counterexample :
    [respCode (start_download emptyStore "https://youtu.be/AAAAAAAAAAA" "720p"
        (some "c1-job1") "f1").1,
     respCode (start_download emptyStore "https://youtu.be/AAAAAAAAAAA" "720p"
        (some "c1-job2") "f2").1,
     respCode (start_download emptyStore "https://youtu.be/AAAAAAAAAAA" "720p"
        (some "c1-job3") "f3").1,
     respCode (start_download emptyStore "https://youtu.be/AAAAAAAAAAA" "720p"
        (some "c1-job4") "f4").1] = [200, 200, 200, 200]
    ∧ (start_download emptyStore "https://youtu.be/AAAAAAAAAAA" "720p"
        (some "c1-job4") "f4").1 = DlResp.started "c1-job4"
    ∧ (200 : ℕ) ≠ 429 := by
  refine ⟨by decide, by decide, by decide⟩

/-- C1 amended: this variant's `start_download` applies no admission control
at all.  Every request with a valid URL succeeds with `started` and HTTP 200
and spawns a worker, regardless of how many requests the client already made
in any trailing window; no 429 is ever produced, and the endpoint's result is
independent of the store, so no admission timestamps are consulted or
recorded. -/
theorem C1_no_rate_limit (store : Store) (url quality : String)
    (idOpt : Option String) (freshId : String)
    (hu : validate_youtube_url url = true) :
    (start_download store url quality idOpt freshId).1
        = DlResp.started (idOpt.getD freshId)
    ∧ respCode (start_download store url quality idOpt freshId).1 = 200
    ∧ (start_download store url quality idOpt freshId).2
        = some (idOpt.getD freshId, quality)
    ∧ start_download store url quality idOpt freshId
        = start_download emptyStore url quality idOpt freshId := by
  have hg := guard_false_of_valid hu
  refine ⟨?_, ?_, ?_, rfl⟩ <;>
    simp [start_download, hg, respCode]

/-- C1 witness: the amended theorem applied to a concrete admitted request. -/
theorem C1_witness :
    validate_youtube_url "https://youtu.be/AAAAAAAAAAA" = true
    ∧ (start_download emptyStore "https://youtu.be/AAAAAAAAAAA" "720p"
        (some "w1") "fw").1 = DlResp.started "w1" :=
  ⟨by decide,
   (C1_no_rate_limit emptyStore "https://youtu.be/AAAAAAAAAAA" "720p"
      (some "w1") "fw" (by decide)).1⟩

/-- C2 counterexample: `download_file` in src/backend.py deletes nothing.
With the artifact `a.mp4` on disk, a first delivery streams it and leaves
disk and job store unchanged, so a second request for the same filename
streams it again with HTTP 200 instead of returning 404. -/
theorem C2_counterexample :
    (download_file emptyStore ["a.mp4"] "a.mp4").1
        = FileResp.fileAttachment "a.mp4"
    ∧ (download_file (download_file emptyStore ["a.mp4"] "a.mp4").2.1
        (download_file emptyStore ["a.mp4"] "a.mp4").2.2 "a.mp4").1
        = FileResp.fileAttachment "a.mp4"
    ∧ fileRespCode (download_file (download_file emptyStore ["a.mp4"] "a.mp4").2.1
        (download_file emptyStore ["a.mp4"] "a.mp4").2.2 "a.mp4").1 = 200
    ∧ FileResp.fileAttachment "a.mp4" ≠ FileResp.notFound := by
  exact ⟨rfl, rfl, rfl, by decide⟩

/-- C2 amended: File Delivery in this variant is not one-shot.  It streams
the artifact whenever the file exists, leaving both the downloads directory
and the job store exactly as they were — no deletion and no removal of job
entries — so a repeated fetch for the same filename succeeds again; 404 is
returned only when the file is absent. -/
theorem C2_no_delete_after_delivery (store : Store) (disk : List String)
    (filename : String) :
    (filename ∈ disk →
      download_file store disk filename
        = (FileResp.fileAttachment filename, store, disk))
    ∧ (filename ∉ disk →
      download_file store disk filename = (FileResp.notFound, store, disk)) := by
  constructor
  · intro h
    simp [download_file, h]
  · intro h
    simp [download_file, h]

/-- C2 witness: the amended theorem applied to a present artifact. -/
theorem C2_witness :
    ("a.mp4" ∈ (["a.mp4"] : List String))
    ∧ download_file emptyStore ["a.mp4"] "a.mp4"
        = (FileResp.fileAttachment "a.mp4", emptyStore, ["a.mp4"]) :=
  ⟨by decide, (C2_no_delete_after_delivery emptyStore ["a.mp4"] "a.mp4").1 (by decide)⟩

/-- C3: one pass of the spec-modelled Retention Sweeper removes every Job
whose age exceeds the time-to-live, regardless of its status and of any
client activity (the sweep is a pure function of the store and clock, not of
any client request), deletes every artifact file named by that job's
identifier, and leaves only jobs within the time-to-live — so no job or
artifact survives a sweep that runs after its expiry. -/
theorem C3_sweeper_reclaims (now ttl : ℕ) (store : List (String × SweepJob))
    (disk : List String) (id : String) (j : SweepJob)
    (hmem : (id, j) ∈ store) (hexp : expired now ttl j = true) :
    (id, j) ∉ (sweep now ttl store disk).1
    ∧ (∀ f ∈ (sweep now ttl store disk).2, beginsWith (id ++ ".") f = false)
    ∧ (∀ p ∈ (sweep now ttl store disk).1, expired now ttl p.2 = false) := by
  refine ⟨?_, ?_, ?_⟩
  · intro hin
    rw [sweep] at hin
    simp only [List.mem_filter] at hin
    rw [hexp] at hin
    exact absurd hin.2 (by decide)
  · intro f hf
    rw [sweep] at hf
    simp only [List.mem_filter] at hf
    have hid : id ∈ (List.filter (fun p => expired now ttl p.2) store).map
        (fun p => p.1) :=
      List.mem_map.mpr ⟨(id, j), List.mem_filter.mpr ⟨hmem, hexp⟩, rfl⟩
    have hall := hf.2
    rw [Bool.not_eq_true', List.any_eq_false] at hall
    simpa using hall id hid
  · intro p hp
    rw [sweep] at hp
    simp only [List.mem_filter] at hp
    simpa using hp.2

/-- C3 witness: the sweeper theorem applied to a concrete store holding one
expired job (age 1000 over a 600-second time-to-live) and its artifact. -/
theorem C3_witness :
    (("old", SweepJob.mk Status.downloading 0)
        ∈ [("old", SweepJob.mk Status.downloading 0)])
    ∧ expired 1000 600 (SweepJob.mk Status.downloading 0) = true
    ∧ ("old", SweepJob.mk Status.downloading 0)
        ∉ (sweep 1000 600 [("old", SweepJob.mk Status.downloading 0)]
            ["old.mp4"]).1 :=
  ⟨by decide, by decide,
   (C3_sweeper_reclaims 1000 600 [("old", SweepJob.mk Status.downloading 0)]
      ["old.mp4"] "old" (SweepJob.mk Status.downloading 0)
      (by decide) (by decide)).1⟩

/-- C4 counterexample: stored progress is not non-decreasing before the
terminal state.  In this worker run the download reaches 100% of a known
total, so the hook stores `min(100, 99) = 99`; the `finished` hook event then
stores 95 while switching the stage to converting.  The second and third
stored states are both non-terminal (`status = downloading`), and progress
falls 99 → 95 between them. -/
theorem C4_counterexample :
    (download_worker "X" "720p" []
        ⟨[HookEvent.downloading (some 100) none (some 100), HookEvent.finished],
          Except.ok (), ["X.mp4"]⟩).states
      = [initJob,
         { status := Status.downloading, progress := 99,
           stage := some Stage.downloading, filename := none, error := none },
         { status := Status.downloading, progress := 95,
           stage := some Stage.converting, filename := none, error := none },
         readyJob "X"]
    ∧ ¬((99 : ℚ) ≤ 95) := by
  have hq : pyIntOk (stripP "720p") = true := by decide
  constructor
  · norm_num [download_worker, hq, hook_states, progress_hook, hookTotal,
      initJob, readyJob]
  · norm_num

/-- C4 amended: progress is non-decreasing across downloading-stage hook
updates as long as the downloaded fraction of the (positive) total does not
decrease, and each such update also keeps status unchanged; the `finished`
hook event, however, unconditionally stores progress 95 with stage
converting — which can be below the previous value (as high as 99) — and the
ready state pins progress to 100. -/
theorem C4_progress_shape (j : Job) (id : String)
    (tb1 tbe1 db1 tb2 tbe2 db2 : Option ℕ)
    (h1 : 0 < hookTotal tb1 tbe1) (h2 : 0 < hookTotal tb2 tbe2)
    (hmono : (db1.getD 0) * (hookTotal tb2 tbe2)
      ≤ (db2.getD 0) * (hookTotal tb1 tbe1)) :
    (progress_hook (.downloading tb1 tbe1 db1) j).progress
      ≤ (progress_hook (.downloading tb2 tbe2 db2)
          (progress_hook (.downloading tb1 tbe1 db1) j)).progress
    ∧ (progress_hook .finished j).progress = 95
    ∧ (progress_hook .finished j).stage = some Stage.converting
    ∧ (progress_hook .finished j).status = j.status
    ∧ (readyJob id).progress = 100 := by
  refine ⟨?_, rfl, rfl, rfl, rfl⟩
  have ht1 : (0 : ℚ) < (hookTotal tb1 tbe1 : ℚ) := by exact_mod_cast h1
  have ht2 : (0 : ℚ) < (hookTotal tb2 tbe2 : ℚ) := by exact_mod_cast h2
  have hfrac : ((db1.getD 0 : ℕ) : ℚ) / (hookTotal tb1 tbe1 : ℚ)
      ≤ ((db2.getD 0 : ℕ) : ℚ) / (hookTotal tb2 tbe2 : ℚ) := by
    rw [div_le_div_iff₀ ht1 ht2]
    exact_mod_cast hmono
  simp only [progress_hook, if_pos h1, if_pos h2]
  exact min_le_min (mul_le_mul_of_nonneg_right hfrac (by norm_num)) le_rfl

/-- C4 witness: the amended theorem applied to two hook updates at 10% and
50% of a 100-byte total. -/
theorem C4_witness :
    0 < hookTotal (some 100) none
    ∧ ((some 10 : Option ℕ).getD 0) * hookTotal (some 100) none
        ≤ ((some 50 : Option ℕ).getD 0) * hookTotal (some 100) none
    ∧ (progress_hook HookEvent.finished initJob).progress = 95 :=
  ⟨by decide, by decide,
   (C4_progress_shape initJob "x" (some 100) none (some 10) (some 100) none
      (some 50) (by decide) (by decide) (by decide)).2.1⟩

/-- Every list of worker states that starts downloading and appends one
terminal state satisfies the leaves-only-downloading chain property. -/
lemma chain_state_aux :
    ∀ (l : List Job) (j : Job), j.status = Status.downloading →
      (∀ k ∈ l, k.status = Status.downloading) → ∀ t : Job,
      List.Chain' (fun a _ => a.status = Status.downloading) (j :: (l ++ [t])) := by
  intro l
  induction l with
  | nil =>
      intro j hj _ t
      exact List.chain'_cons.mpr ⟨hj, List.chain'_singleton t⟩
  | cons b bs ih =>
      intro j hj hall t
      rw [List.cons_append, List.chain'_cons]
      exact ⟨hj, ih b (hall b (List.mem_cons_self b bs))
        (fun k hk => hall k (List.mem_cons_of_mem b hk)) t⟩

/-- C5 counterexample: job identifiers are reused while present, and that
reuse moves a job out of `ready`.  A first worker run for id `A` ends with
the stored entry `ready`; with that entry still in the store,
`start_download` accepts a request carrying the same id `A` (the endpoint
never consults the store) and spawns a new worker, whose first action stores
the id-`A` entry as `downloading` again — a transition out of `ready` that is
not a deletion. -/
theorem C5_counterexample :
    (download_worker "A" "720p" [] ⟨[], Except.ok (), ["A.mp4"]⟩).states.getLast?
        = some (readyJob "A")
    ∧ getJob (setJob emptyStore "A" (readyJob "A")) "A" = some (readyJob "A")
    ∧ start_download (setJob emptyStore "A" (readyJob "A"))
        "https://youtu.be/AAAAAAAAAAA" "720p" (some "A") "fresh"
        = (DlResp.started "A", some ("A", "720p"))
    ∧ (download_worker "A" "720p" ["A.mp4"]
        ⟨[], Except.ok (), ["A.mp4"]⟩).states.head? = some initJob
    ∧ initJob.status = Status.downloading
    ∧ (readyJob "A").status = Status.ready := by
  exact ⟨by decide, by decide, by decide, by decide, by decide, by decide⟩

/-- C5 amended: within a single worker run the status of the stored entry
does advance forward only — the run starts at the downloading entry, every
state that has a successor is `downloading` (so nothing ever leaves `ready`
or `error` during the run, and no regression occurs), and the run ends in
`ready` or `error`.  However, the creation endpoints accept a client-supplied
identifier without checking the store, so an identifier still present can be
reused, which restarts this sequence from `downloading` (the counterexample). -/
theorem C5_forward_within_run (id quality : String) (disk0 : List String)
    (dl : DlOutcome) :
    (download_worker id quality disk0 dl).states.head? = some initJob
    ∧ List.Chain' (fun a _ => a.status = Status.downloading)
        (download_worker id quality disk0 dl).states
    ∧ (∃ t, (download_worker id quality disk0 dl).states.getLast? = some t
        ∧ (t.status = Status.ready ∨ t.status = Status.error)) := by
  have hmid : ∀ k ∈ hook_states initJob dl.events,
      k.status = Status.downloading :=
    fun k hk => hook_states_status dl.events initJob k hk
  rw [download_worker]
  by_cases hq : pyIntOk (stripP quality) = true
  · rw [if_pos hq]
    cases hres : dl.result with
    | error e =>
        refine ⟨rfl, chain_state_aux _ initJob rfl hmid _, errJob e, ?_, Or.inr rfl⟩
        exact getLast?_cons_append _ _ _
    | ok u =>
        refine ⟨rfl, chain_state_aux _ initJob rfl hmid _, readyJob id, ?_, Or.inl rfl⟩
        exact getLast?_cons_append _ _ _
  · rw [if_neg hq]
    refine ⟨rfl, ?_, errJob (.intParse (stripP quality)), rfl, Or.inr rfl⟩
    exact List.chain'_cons.mpr ⟨rfl, List.chain'_singleton _⟩

/-- C6 counterexample: the SSE generator in src/backend.py deduplicates
nothing.  Two consecutive polls that observe the identical downloading state
(progress 50) emit two identical progress events; the claim would require the
second poll to emit nothing. -/
theorem C6_counterexample :
    generate [some (Job.mk Status.downloading 50 (some Stage.downloading) none none),
              some (Job.mk Status.downloading 50 (some Stage.downloading) none none)]
      = [Event.progress 50 "downloading", Event.progress 50 "downloading"]
    ∧ generate [some (Job.mk Status.downloading 50 (some Stage.downloading) none none),
              some (Job.mk Status.downloading 50 (some Stage.downloading) none none)]
      ≠ [Event.progress 50 "downloading"] := by
  exact ⟨by decide, by decide⟩

/-- C6 amended: the live-update channel emits a progress event on every poll
that observes status `downloading` or `converting`, whether or not the value
changed since the last emission; in particular two consecutive polls of the
same unchanged state emit the same progress event twice.  No deduplication of
identical values exists in this variant. -/
theorem C6_emit_every_poll (j : Job) (rest : List (Option Job))
    (h : j.status = Status.downloading ∨ j.status = Status.converting) :
    generate (some j :: some j :: rest)
      = Event.progress j.progress ((j.stage.map stageName).getD "downloading")
        :: Event.progress j.progress ((j.stage.map stageName).getD "downloading")
        :: generate rest := by
  obtain ⟨st, pr, sg, fn, er⟩ := j
  rcases h with h | h <;> (simp only at h; subst h; rfl)

/-- C6 witness: the amended theorem applied to an unchanged 50% state. -/
theorem C6_witness :
    ((Job.mk Status.downloading 50 (some Stage.downloading) none none).status
        = Status.downloading
      ∨ (Job.mk Status.downloading 50 (some Stage.downloading) none none).status
        = Status.converting)
    ∧ generate [some (Job.mk Status.downloading 50 (some Stage.downloading) none none),
        some (Job.mk Status.downloading 50 (some Stage.downloading) none none)]
      = [Event.progress 50 "downloading", Event.progress 50 "downloading"] :=
  ⟨Or.inl rfl,
   C6_emit_every_poll (Job.mk Status.downloading 50 (some Stage.downloading) none none)
     [] (Or.inl rfl)⟩

/-- C7 counterexample: the worker's `except` handler records the error but
cleans nothing from disk.  Here the fetch writes `X.mp4` and then raises (a
post-write failure); the job ends in `status = error` with the captured
message, yet the artifact file for job `X` — the very name `X.mp4` that a
successful run would deliver — is still on disk, where the claim requires no
artifact file to be left. -/
theorem C7_counterexample :
    (download_worker "X" "720p" []
        ⟨[], Except.error (PyErr.ydl "postprocessing failed"), ["X.mp4"]⟩).states.getLast?
      = some (errJob (PyErr.ydl "postprocessing failed"))
    ∧ "X.mp4" ∈ (download_worker "X" "720p" []
        ⟨[], Except.error (PyErr.ydl "postprocessing failed"), ["X.mp4"]⟩).disk
    ∧ (readyJob "X").filename = some "X.mp4"
    ∧ (errJob (PyErr.ydl "postprocessing failed")).status = Status.error := by
  exact ⟨by decide, by decide, by decide, by decide⟩

/-- C7 amended: whenever the fetch raises at any stage, the job's final
stored state is the error entry — status `error`, the captured exception
message, progress reset to 0 — and the worker run ends there (no retry step
follows); but the handler performs no disk cleanup, so the downloads
directory is left exactly as the failed fetch left it, including any partial
or complete files already written for the job. -/
theorem C7_error_terminal_no_cleanup (id quality : String)
    (disk0 : List String) (dl : DlOutcome) (e : PyErr)
    (hq : pyIntOk (stripP quality) = true)
    (hres : dl.result = Except.error e) :
    (download_worker id quality disk0 dl).states.getLast? = some (errJob e)
    ∧ (errJob e).status = Status.error
    ∧ (errJob e).error = some e
    ∧ (download_worker id quality disk0 dl).disk = dl.filesAfter := by
  rw [download_worker, if_pos hq, hres]
  exact ⟨getLast?_cons_append _ _ _, rfl, rfl, rfl⟩

/-- C7 witness: the amended theorem applied to a fetch that dies leaving a
partial file. -/
theorem C7_witness :
    pyIntOk (stripP "720p") = true
    ∧ (download_worker "W" "720p" []
        ⟨[], Except.error (PyErr.ydl "boom"), ["W.mp4.part"]⟩).disk
      = ["W.mp4.part"] :=
  ⟨by decide,
   (C7_error_terminal_no_cleanup "W" "720p" []
      ⟨[], Except.error (PyErr.ydl "boom"), ["W.mp4.part"]⟩ (PyErr.ydl "boom")
      (by decide) rfl).2.2.2⟩

/-- C8: while downloading, a hook update with a known (positive) total stores
exactly `min(downloaded/total*100, 99)` — hence never 100 — and a hook update
with no size signal leaves the entry entirely unchanged; across any worker
run, a stored state with progress 100 is exactly the ready state: its status
is `ready`, its filename is set to the artifact name, and it can occur only
when the fetch ran to successful completion. -/
theorem C8_progress_semantics (j : Job) (tb tbe db : Option ℕ)
    (id quality : String) (disk0 : List String) (dl : DlOutcome) (k : Job) :
    (0 < hookTotal tb tbe →
      (progress_hook (.downloading tb tbe db) j).progress
        = min (((db.getD 0 : ℕ) : ℚ) / (hookTotal tb tbe : ℚ) * 100) 99
      ∧ (progress_hook (.downloading tb tbe db) j).progress ≤ 99)
    ∧ (hookTotal tb tbe = 0 → progress_hook (.downloading tb tbe db) j = j)
    ∧ (k ∈ (download_worker id quality disk0 dl).states → k.progress = 100 →
      k.status = Status.ready ∧ k.filename = some (id ++ ".mp4")
        ∧ dl.result = Except.ok ()) := by
  refine ⟨?_, ?_, ?_⟩
  · intro h
    rw [progress_hook, if_pos h]
    exact ⟨rfl, min_le_right _ _⟩
  · intro h
    rw [progress_hook, if_neg]
    omega
  · intro hk hp
    have hinit : initJob.progress ≤ 99 := by norm_num [initJob]
    rw [download_worker] at hk
    by_cases hq : pyIntOk (stripP quality) = true
    · rw [if_pos hq] at hk
      cases hres : dl.result with
      | error e =>
          rw [hres] at hk
          simp only [List.cons_append, List.mem_cons, List.mem_append,
            List.mem_singleton] at hk
          rcases hk with hk | hk | hk | hk
          · subst hk; norm_num [initJob] at hp
          · have := hook_states_progress_le dl.events initJob hinit k hk
            rw [hp] at this; norm_num at this
          · subst hk; norm_num [errJob] at hp
          · simp at hk
      | ok u =>
          rw [hres] at hk
          simp only [List.cons_append, List.mem_cons, List.mem_append,
            List.mem_singleton] at hk
          rcases hk with hk | hk | hk | hk
          · subst hk; norm_num [initJob] at hp
          · have := hook_states_progress_le dl.events initJob hinit k hk
            rw [hp] at this; norm_num at this
          · subst hk
            cases u
            exact ⟨rfl, rfl, rfl⟩
          · simp at hk
    · rw [if_neg hq] at hk
      simp only [List.mem_cons, List.mem_singleton] at hk
      rcases hk with hk | hk | hk
      · subst hk; norm_num [initJob] at hp
      · subst hk; norm_num [errJob] at hp
      · simp at hk

/-- C8 witness: the theorem applied to a 50-of-200-byte hook update and to
the ready state of a successfully completed run. -/
theorem C8_witness :
    0 < hookTotal (some 200) none
    ∧ readyJob "X" ∈ (download_worker "X" "720p" []
        ⟨[], Except.ok (), ["X.mp4"]⟩).states
    ∧ ((readyJob "X").status = Status.ready
        ∧ (readyJob "X").filename = some ("X" ++ ".mp4")
        ∧ (DlOutcome.mk [] (Except.ok ()) ["X.mp4"]).result = Except.ok ()) :=
  ⟨by decide, by decide,
   (C8_progress_semantics initJob (some 200) none (some 50) "X" "720p" []
      ⟨[], Except.ok (), ["X.mp4"]⟩ (readyJob "X")).2.2 (by decide) rfl⟩

/-- C9: for any sequence of polls that eventually observes a terminal job
state (the worker reached `ready` or `error` and the entry was not purged),
the generator's event stream contains exactly one terminal event, that event
is the last element of the stream (nothing is emitted after it), and it is
the complete event with the filename when the first terminal state observed
is `ready`, or the error event with the failure message when it is `error`. -/
theorem C9_single_terminal_event (polls : List (Option Job)) (j : Job)
    (h : polls.find? pollTerminal = some (some j)) :
    ((generate polls).filter isTerminalEvent).length = 1
    ∧ (generate polls).getLast? = some (terminalEventFor j)
    ∧ isTerminalEvent (terminalEventFor j) = true := by
  induction polls with
  | nil => simp [List.find?] at h
  | cons x rest ih =>
      by_cases hx : pollTerminal x = true
      · rw [List.find?_cons_of_pos _ hx] at h
        have hxj : x = some j := by injection h
        subst hxj
        have hst : j.status = Status.ready ∨ j.status = Status.error := by
          simpa [pollTerminal] using hx
        rcases hst with hst | hst
        · obtain ⟨st, pr, sg, fn, er⟩ := j
          simp only at hst
          subst hst
          exact ⟨rfl, rfl, rfl⟩
        · obtain ⟨st, pr, sg, fn, er⟩ := j
          simp only at hst
          subst hst
          exact ⟨rfl, rfl, rfl⟩
      · rw [List.find?_cons_of_neg _ hx] at h
        obtain ⟨ih1, ih2, ih3⟩ := ih h
        have hne : generate rest ≠ [] := by
          intro h0
          rw [h0] at ih2
          simp at ih2
        cases x with
        | none => exact ⟨ih1, ih2, ih3⟩
        | some jh =>
            have hs : ¬(jh.status = Status.ready ∨ jh.status = Status.error) := by
              simpa [pollTerminal] using hx
            obtain ⟨st, pr, sg, fn, er⟩ := jh
            cases st with
            | queued => exact ⟨ih1, ih2, ih3⟩
            | downloading =>
                refine ⟨?_, ?_, ih3⟩
                · simpa [generate, isTerminalEvent] using ih1
                · simpa [generate, getLast?_cons_of_ne_nil _ hne] using ih2
            | converting =>
                refine ⟨?_, ?_, ih3⟩
                · simpa [generate, isTerminalEvent] using ih1
                · simpa [generate, getLast?_cons_of_ne_nil _ hne] using ih2
            | ready => exact absurd (Or.inl rfl) hs
            | error => exact absurd (Or.inr rfl) hs

/-- C9 witness: the theorem applied to a poll sequence that observes one
downloading state and then the ready state. -/
theorem C9_witness :
    ([some initJob, some (readyJob "X")].find? pollTerminal
        = some (some (readyJob "X")))
    ∧ ((generate [some initJob, some (readyJob "X")]).filter
        isTerminalEvent).length = 1 :=
  ⟨by decide,
   (C9_single_terminal_event [some initJob, some (readyJob "X")] (readyJob "X")
      (by decide)).1⟩

/-- C10 counterexample: the claim's premise quantifies over quality strings
whose text before a trailing p does not parse as an integer, but the code
strips every p (`quality.replace`), not only a trailing one.  For the quality
string `p720p` the premise holds — `p720` is not an integer — yet the worker
parses `720` and, when the fetch succeeds, ends the job `ready`, not in the
parse error the claim predicts. -/
theorem C10_counterexample :
    pyIntOk (textBeforeTrailingP "p720p") = false
    ∧ pyIntOk (stripP "p720p") = true
    ∧ (download_worker "X" "p720p" []
        ⟨[], Except.ok (), ["X.mp4"]⟩).states.getLast? = some (readyJob "X")
    ∧ (readyJob "X").status ≠ Status.error := by
  exact ⟨by decide, by decide, by decide, by decide⟩

/-- C10 amended: for every quality string from which removing all occurrences
of p leaves text that does not parse as an integer (such as `best` or the
empty string), both download endpoints still accept the request — HTTP 200,
a worker spawned — rather than rejecting it synchronously with a 4xx, and
the worker run consists of the initial downloading entry followed by the
terminal error entry carrying the int-parse exception for the stripped
string. -/
theorem C10_unparseable_quality (store : Store) (url quality : String)
    (idOpt : Option String) (freshId : String) (disk0 : List String)
    (dl : DlOutcome)
    (hu : validate_youtube_url url = true)
    (hq : pyIntOk (stripP quality) = false) :
    (start_download store url quality idOpt freshId).1
        = DlResp.started (idOpt.getD freshId)
    ∧ respCode (start_download store url quality idOpt freshId).1 = 200
    ∧ (start_download store url quality idOpt freshId).2
        = some (idOpt.getD freshId, quality)
    ∧ (download_stream store url quality idOpt freshId).1 = StreamResp.sse
    ∧ (download_worker (idOpt.getD freshId) quality disk0 dl).states
        = [initJob, errJob (PyErr.intParse (stripP quality))] := by
  have hg := guard_false_of_valid hu
  refine ⟨?_, ?_, ?_, ?_, ?_⟩
  · simp [start_download, hg]
  · simp [start_download, hg, respCode]
  · simp [start_download, hg]
  · simp [download_stream, hg]
  · rw [download_worker, if_neg]
    rw [hq]
    simp

/-- C10 witness: the amended theorem applied to quality `best` on a valid
URL. -/
theorem C10_witness :
    validate_youtube_url "https://youtu.be/AAAAAAAAAAA" = true
    ∧ pyIntOk (stripP "best") = false
    ∧ (download_worker "q1" "best" [] ⟨[], Except.ok (), []⟩).states
        = [initJob, errJob (PyErr.intParse (stripP "best"))] :=
  ⟨by decide, by decide,
   (C10_unparseable_quality emptyStore "https://youtu.be/AAAAAAAAAAA" "best"
      (some "q1") "f" [] ⟨[], Except.ok (), []⟩ (by decide)
      (by decide)).2.2.2.2⟩

end Backend
